import Mathlib

/-
Formal model of the two core utilities of the botcase repository
(src/src/services/GroqService.ts):

* the sheet-range-to-text serializer `convertSheetToText` together with its
  column helpers `getColumnIndex` and `getColumnLetter`;
* the tolerant JSON extractor `parseGroqResponse` (the spec's `extract`),
  which picks a candidate substring of the model response via two fence
  regexes and hands it to `JSON.parse`.

Modelling conventions:
* JavaScript strings are modelled as Lean `String`s (lists of Unicode scalar
  values).  The inputs exercised by the claims are plain ASCII/BMP text, where
  UTF-16 code units and scalar values coincide.
* JavaScript numbers appearing here are integers produced by integer
  arithmetic (`charCodeAt`, `parseInt` on digit runs, loop counters); they are
  modelled as `Int`/`Nat`.  The claims stay far below 2^53, where JavaScript
  arithmetic on integers is exact.
* Code that can throw is modelled with `Except`; the thrown JavaScript
  `Error`'s message string is the error payload.
* `JSON.parse` is modelled by a recursive-descent parser of the JSON grammar
  (ECMA-404, as consumed by ECMA-262 `JSON.parse`), returning `Option Json`.
  Numeric literals are kept as their source tokens, so no floating-point
  semantics is needed; `\u` escapes are mapped through `Char.ofNat` (the
  claims use none).
-/

/-! ## JSON values and a model of `JSON.parse` -/

inductive Json where
  | jnull : Json
  | jbool : Bool → Json
  | jnum : String → Json
  | jstr : String → Json
  | jarr : List Json → Json
  | jobj : List (String × Json) → Json

/-- The whitespace accepted by the JSON grammar: tab, LF, CR, space. -/
def jsonWs (c : Char) : Bool :=
  c = ' ' || c = '\t' || c = '\n' || c = '\r'

def skipWs (l : List Char) : List Char := l.dropWhile jsonWs

def hexVal (c : Char) : Option Nat :=
  if '0' ≤ c && c ≤ '9' then some (c.toNat - 48)
  else if 'a' ≤ c && c ≤ 'f' then some (c.toNat - 87)
  else if 'A' ≤ c && c ≤ 'F' then some (c.toNat - 55)
  else none

/-- JSON string body, after the opening quote: ordinary characters (code
points below 0x20 are rejected) and the escape sequences of the grammar.
Returns the decoded content and the remainder after the closing quote. -/
def strBody : List Char → List Char → Option (String × List Char)
  | [], _ => none
  | '"' :: rest, acc => some (String.mk acc.reverse, rest)
  | '\\' :: '"' :: r, acc => strBody r ('"' :: acc)
  | '\\' :: '\\' :: r, acc => strBody r ('\\' :: acc)
  | '\\' :: '/' :: r, acc => strBody r ('/' :: acc)
  | '\\' :: 'b' :: r, acc => strBody r (Char.ofNat 8 :: acc)
  | '\\' :: 'f' :: r, acc => strBody r (Char.ofNat 12 :: acc)
  | '\\' :: 'n' :: r, acc => strBody r ('\n' :: acc)
  | '\\' :: 'r' :: r, acc => strBody r ('\r' :: acc)
  | '\\' :: 't' :: r, acc => strBody r ('\t' :: acc)
  | '\\' :: 'u' :: h1 :: h2 :: h3 :: h4 :: r, acc =>
    match hexVal h1, hexVal h2, hexVal h3, hexVal h4 with
    | some a, some b, some c, some d =>
      strBody r (Char.ofNat (((a * 16 + b) * 16 + c) * 16 + d) :: acc)
    | _, _, _, _ => none
  | '\\' :: _, _ => none
  | c :: rest, acc => if c.toNat < 32 then none else strBody rest (c :: acc)

def isDigit (c : Char) : Bool := '0' ≤ c && c ≤ '9'

/-- The integer part of a JSON number: `0`, or a nonzero digit followed by
digits (no leading zeros). -/
def intDigits : List Char → Option (List Char × List Char)
  | '0' :: r => some (['0'], r)
  | c :: r =>
    if '1' ≤ c && c ≤ '9' then some (c :: r.takeWhile isDigit, r.dropWhile isDigit)
    else none
  | [] => none

/-- The optional fraction part: a dot must be followed by at least one digit. -/
def fracDigits : List Char → Option (List Char × List Char)
  | '.' :: r =>
    let ds := r.takeWhile isDigit
    if ds.isEmpty then none else some ('.' :: ds, r.dropWhile isDigit)
  | l => some ([], l)

/-- The optional exponent part: `e`/`E`, an optional sign, then at least one
digit. -/
def expDigits : List Char → Option (List Char × List Char)
  | c :: r =>
    if c = 'e' || c = 'E' then
      let p : List Char × List Char :=
        match r with
        | '+' :: r2 => (['+'], r2)
        | '-' :: r2 => (['-'], r2)
        | _ => ([], r)
      let ds := p.2.takeWhile isDigit
      if ds.isEmpty then none
      else some (c :: (p.1 ++ ds), p.2.dropWhile isDigit)
    else some ([], c :: r)
  | [] => some ([], [])

/-- A JSON number token `-? int frac? exp?`, kept as its source text. -/
def parseNumber (l : List Char) : Option (Json × List Char) :=
  let p : List Char × List Char :=
    match l with
    | '-' :: r => (['-'], r)
    | _ => ([], l)
  match intDigits p.2 with
  | none => none
  | some (ip, l2) =>
    match fracDigits l2 with
    | none => none
    | some (fp, l3) =>
      match expDigits l3 with
      | none => none
      | some (ep, l4) => some (Json.jnum (String.mk (p.1 ++ ip ++ fp ++ ep)), l4)

mutual

/-- A JSON value (whitespace before it already skipped by the caller).
The fuel argument dominates the nesting depth; `parseJson` supplies
`length + 1`, which is enough because every recursive call consumes at least
one character first. -/
def parseValue : Nat → List Char → Option (Json × List Char)
  | 0, _ => none
  | f + 1, l =>
    match l with
    | [] => none
    | '\x7b' :: rest =>
      match skipWs rest with
      | '\x7d' :: r2 => some (Json.jobj [], r2)
      | l2 => parseMembers f l2 []
    | '[' :: rest =>
      match skipWs rest with
      | ']' :: r2 => some (Json.jarr [], r2)
      | l2 => parseElems f l2 []
    | '"' :: rest => (strBody rest []).map (fun p => (Json.jstr p.1, p.2))
    | 't' :: 'r' :: 'u' :: 'e' :: rest => some (Json.jbool true, rest)
    | 'f' :: 'a' :: 'l' :: 's' :: 'e' :: rest => some (Json.jbool false, rest)
    | 'n' :: 'u' :: 'l' :: 'l' :: rest => some (Json.jnull, rest)
    | _ => parseNumber l

/-- The member list of a JSON object, positioned at a key (whitespace
skipped), with the members parsed so far accumulated in order. -/
def parseMembers : Nat → List Char → List (String × Json) → Option (Json × List Char)
  | 0, _, _ => none
  | f + 1, l, acc =>
    match l with
    | '"' :: rest =>
      match strBody rest [] with
      | none => none
      | some (key, r1) =>
        match skipWs r1 with
        | ':' :: r2 =>
          match parseValue f (skipWs r2) with
          | none => none
          | some (v, r3) =>
            match skipWs r3 with
            | ',' :: r4 => parseMembers f (skipWs r4) (acc ++ [(key, v)])
            | '\x7d' :: r4 => some (Json.jobj (acc ++ [(key, v)]), r4)
            | _ => none
        | _ => none
    | _ => none

/-- The element list of a JSON array, positioned at a value (whitespace
skipped). -/
def parseElems : Nat → List Char → List Json → Option (Json × List Char)
  | 0, _, _ => none
  | f + 1, l, acc =>
    match parseValue f l with
    | none => none
    | some (v, r) =>
      match skipWs r with
      | ',' :: r2 => parseElems f (skipWs r2) (acc ++ [v])
      | ']' :: r2 => some (Json.jarr (acc ++ [v]), r2)
      | _ => none

end

/-- Model of `JSON.parse`: `ws value ws`, the whole input consumed. -/
def parseJson (s : String) : Option Json :=
  match parseValue (s.data.length + 1) (skipWs s.data) with
  | some (v, rest) => if skipWs rest = [] then some v else none
  | none => none

/-! ## Model of the fence regexes and `parseGroqResponse`

`parseGroqResponse` (GroqService.ts:302-315) picks its candidate via

  response.match(/```json\s*([\s\S]*?)\s*```/) ||
  response.match(/```\s*([\s\S]*?)\s*```/) ||
  [null, response]

and then `jsonMatch[1] || response`.  Both regexes have the shape
`LIT \s* ([\s\S]*?) \s* LIT2` with `LIT2 = three backticks`.  The model
implements the backtracking search of the JavaScript engine directly:

* `String.prototype.match` (without `/g`) finds the leftmost starting
  position admitting a match (`findFence` walks the suffixes in order);
* at a given start, the literal must match, then the greedy `\s*` tries the
  longest whitespace run first (`tailMatch` iterates `k` downward), the lazy
  group tries the shortest interior first (`groupMatch` iterates `L` upward),
  and the final greedy `\s*` backtracks from its longest run until the
  closing backticks match (`closeMatch` tries each `m`).
-/

/-- The character class `\s` of JavaScript regexes. -/
def jsWs (c : Char) : Bool :=
  c = ' ' || c = '\t' || c = '\n' || c.toNat = 11 || c.toNat = 12 || c = '\r' ||
  c.toNat = 0xA0 || c.toNat = 0x1680 ||
  (0x2000 ≤ c.toNat && c.toNat ≤ 0x200A) ||
  c.toNat = 0x2028 || c.toNat = 0x2029 || c.toNat = 0x202F ||
  c.toNat = 0x205F || c.toNat = 0x3000 || c.toNat = 0xFEFF

/-- Length of the leading `\s` run. -/
def wsRun (l : List Char) : Nat := (l.takeWhile jsWs).length

def btick : Char := '\x60'

/-- Does `l` begin with three backticks? -/
def ticksAt : List Char → Bool
  | a :: b :: c :: _ => a = btick && b = btick && c = btick
  | _ => false

/-- Can `\s*` followed by three literal backticks match at the head of `l`?
The greedy `\s*` tries every length `m` of its whitespace run. -/
def closeMatch (l : List Char) : Bool :=
  (List.range (wsRun l + 1)).any (fun m => ticksAt (l.drop m))

/-- The lazy group `([\s\S]*?)` followed by `\s*` and the closing backticks:
the shortest interior `L` admitting a close wins. -/
def groupMatch (l : List Char) : Option (List Char) :=
  ((List.range (l.length + 1)).find? (fun L => closeMatch (l.drop L))).map
    (fun L => l.take L)

/-- After the opening literal: greedy `\s*` (longest run first), then the
lazy group. -/
def tailMatch (l : List Char) : Option (List Char) :=
  ((List.range (wsRun l + 1)).reverse).findSome? (fun k => groupMatch (l.drop k))

/-- Leftmost-match search of `String.prototype.match`: try each start
position in order; at a start the opening literal must be present, then the
rest of the pattern; on failure move one position right. -/
def findFence (openTok : List Char) : List Char → Option (List Char)
  | [] => none
  | c :: rest =>
    if openTok.isPrefixOf (c :: rest) then
      match tailMatch ((c :: rest).drop openTok.length) with
      | some g => some g
      | none => findFence openTok rest
    else findFence openTok rest

def fenceJsonOpen : List Char := "\x60\x60\x60json".data

def fenceOpen : List Char := "\x60\x60\x60".data

/-- Group 1 of `response.match(/```json\s*([\s\S]*?)\s*```/)`. -/
def matchJsonFence (s : String) : Option String :=
  (findFence fenceJsonOpen s.data).map String.mk

/-- Group 1 of `response.match(/```\s*([\s\S]*?)\s*```/)`. -/
def matchPlainFence (s : String) : Option String :=
  (findFence fenceOpen s.data).map String.mk

/-- The candidate string fed to `JSON.parse`: the first regex that matches
wins (`||` between the two `match` calls, with `[null, response]` as final
fallback), and `jsonMatch[1] || response` replaces an empty (falsy) group
with the whole response. -/
def chooseCandidate (response : String) : String :=
  match (matchJsonFence response).orElse (fun _ => matchPlainFence response) with
  | some g => if g = "" then response else g
  | none => response

/-- `parseGroqResponse` (GroqService.ts:302-315): parse the candidate; on any
parse failure the catch block throws `new Error('Invalid response format from
Groq')`, modelled as the `Except.error` carrying that message. -/
def parseGroqResponse (response : String) : Except String Json :=
  match parseJson (chooseCandidate response) with
  | some v => Except.ok v
  | none => Except.error "Invalid response format from Groq"

/-! ## Column helpers and the sheet serializer -/

/-- `getColumnIndex` (GroqService.ts:252-258): fold
`index = index * 26 + (charCodeAt(i) - 64)` over the characters, starting
from 0.  There is no validation; the subtraction is on JavaScript numbers,
so the result is an `Int` (negative contributions are possible for
characters below `'@'`). -/
def getColumnIndex (columnLetter : String) : Int :=
  columnLetter.data.foldl (fun index c => index * 26 + ((c.toNat : Int) - 64)) 0

/-- The loop of `getColumnLetter` (GroqService.ts:260-268):

  while (index > 0) { index--; letter = chr(65 + index % 26) + letter;
                      index = floor(index / 26); }

For `index = n + 1 > 0` one iteration prepends `chr(65 + n % 26)` and
continues with `n / 26`.  The first argument is fuel bounding the number of
iterations; since the value never exceeds the fuel (the value strictly
decreases at least as fast), fuel equal to the initial value is enough and
the fuel-exhausted branch is unreachable. -/
def colLetterAux : Nat → Nat → List Char → List Char
  | 0, _, acc => acc
  | _ + 1, 0, acc => acc
  | f + 1, n + 1, acc => colLetterAux f (n / 26) (Char.ofNat (65 + n % 26) :: acc)

/-- `getColumnLetter` (GroqService.ts:260-268).  The JavaScript loop body
only runs while the index is positive, so every index ≤ 0 yields the empty
string; `Int.toNat` maps exactly those to 0. -/
def getColumnLetter (index : Int) : String :=
  String.mk (colLetterAux index.toNat index.toNat [])

/-- A worksheet cell: `cell.v` is `undefined` (`none`) or a defined scalar,
recorded by the string the template literal `${cell.v}` produces for it. -/
structure Cell where
  v : Option String

/-- A worksheet as `convertSheetToText` consumes it: the optional `!ref`
range string and the address-keyed cell entries. -/
structure Sheet where
  ref : Option String
  cells : String → Option Cell

def isUpperAZ (c : Char) : Bool := 'A' ≤ c && c ≤ 'Z'

/-- `str.match(/[A-Z]+/)` / `str.match(/\d+/)`: the leftmost maximal run of
characters of the class, or `none` (JavaScript `null`) when there is none. -/
def firstRun (p : Char → Bool) : List Char → Option (List Char)
  | [] => none
  | c :: rest => if p c then some (c :: rest.takeWhile p) else firstRun p rest

/-- `parseInt` on a nonempty decimal-digit run. -/
def digitsVal (l : List Char) : Nat :=
  l.foldl (fun a c => a * 10 + (c.toNat - 48)) 0

/-- The JavaScript exceptions `convertSheetToText` can raise: reading a
property of `undefined` (`parts[1]` when the ref has no colon) or indexing a
`null` regex result (`match(...)[0]` when a run is missing). -/
inductive JsError where
  | typeError

/-- `String.prototype.split` with a single-character separator: split at
every occurrence, keeping empty pieces (`''.split(':')` is `['']`). -/
def jsSplit (sep : Char) : List Char → List Char → List String
  | [], cur => [String.mk cur.reverse]
  | c :: rest, cur =>
    if c = sep then String.mk cur.reverse :: jsSplit sep rest []
    else jsSplit sep rest (c :: cur)

/-- Lines 232-236 of GroqService.ts: split the ref on `':'`, then extract
the column-letter run and row-digit run of each endpoint:

  const [start, end] = range.split(':');
  const startCol = this.getColumnIndex(start.match(/[A-Z]+/)[0]);
  const startRow = parseInt(start.match(/\d+/)[0]);
  const endCol = this.getColumnIndex(end.match(/[A-Z]+/)[0]);
  const endRow = parseInt(end.match(/\d+/)[0]);

Any missing piece throws a `TypeError`.  Returns
`(startCol, startRow, endCol, endRow)`. -/
def parseRange (r : String) : Except JsError (Int × Int × Int × Int) :=
  let parts := jsSplit ':' r.data []
  let start := parts.headD ""
  match parts.drop 1 with
  | [] => Except.error JsError.typeError
  | endStr :: _ =>
    match firstRun isUpperAZ start.data, firstRun isDigit start.data,
          firstRun isUpperAZ endStr.data, firstRun isDigit endStr.data with
    | some sl, some sd, some el, some ed =>
      Except.ok (getColumnIndex (String.mk sl), (digitsVal sd : Int),
                 getColumnIndex (String.mk el), (digitsVal ed : Int))
    | _, _, _, _ => Except.error JsError.typeError

/-- The inclusive ascending loop range `for (i = lo; i <= hi; i++)`; empty
when `hi < lo`. -/
def intRange (lo hi : Int) : List Int :=
  (List.range (hi + 1 - lo).toNat).map (fun k => lo + (k : Int))

/-- The nested loops of `convertSheetToText` (GroqService.ts:238-247): for
each row then column, look the cell up at `getColumnLetter(col) + row`;
append `value + '\t'` when `cell && cell.v !== undefined`, nothing
otherwise; append `'\n'` after each row. -/
def serializeLoop (sheet : Sheet) (startCol startRow endCol endRow : Int) : String :=
  (intRange startRow endRow).foldl (fun text row =>
    ((intRange startCol endCol).foldl (fun text col =>
      let cellAddress := getColumnLetter col ++ toString row
      match sheet.cells cellAddress with
      | some cell =>
        match cell.v with
        | some v => text ++ v ++ "\t"
        | none => text
      | none => text) text) ++ "\n") ""

/-- `convertSheetToText` (GroqService.ts:228-250): a falsy `!ref` (absent,
or the empty string) short-circuits to the empty text; otherwise the ref is
parsed (possibly throwing) and the loops run. -/
def convertSheetToText (sheet : Sheet) : Except JsError String :=
  match sheet.ref with
  | none => Except.ok ""
  | some r =>
    if r = "" then Except.ok ""
    else
      match parseRange r with
      | Except.error e => Except.error e
      | Except.ok (sc, sr, ec, er) => Except.ok (serializeLoop sheet sc sr ec er)

/-! ## Spec-side definitions

These are written from the words of the claims (not from the source), to be
compared with the source-derived definitions above. -/

/-- Concatenation of a list of strings, in order. -/
def strConcat : List String → String
  | [] => ""
  | s :: rest => s ++ strConcat rest

/-- Written from claim C4: the left fold
`index = index * 26 + (charCode(letter) - charCode('A') + 1)`. -/
def specColumnIndex (letters : String) : Int :=
  letters.data.foldl (fun index c => index * 26 + ((c.toNat : Int) - 65 + 1)) 0

/-- Written from claim C7: a present cell contributes its string value
followed by a tab, an absent cell contributes nothing. -/
def specCellText (sheet : Sheet) (row col : Int) : String :=
  match (sheet.cells (getColumnLetter col ++ toString row)).bind Cell.v with
  | some v => v ++ "\t"
  | none => ""

/-- Written from claim C7: rows of the range in ascending order, each row the
concatenation of its cells' contributions followed by exactly one newline. -/
def specSerialize (sheet : Sheet) (sc sr ec er : Int) : String :=
  strConcat ((intRange sr er).map (fun row =>
    strConcat ((intRange sc ec).map (fun col => specCellText sheet row col)) ++ "\n"))

/-! ## Helper lemmas -/

theorem foldl_step_concat {α : Type} (step : String → α → String) (g : α → String)
    (hstep : ∀ t x, step t x = t ++ g x) :
    ∀ (l : List α) (init : String), l.foldl step init = init ++ strConcat (l.map g) := by
  intro l
  induction l with
  | nil => intro init; simp [strConcat, String.append_empty]
  | cons x xs ih =>
    intro init
    rw [List.foldl_cons, hstep, ih, List.map_cons, strConcat, String.append_assoc]

theorem char_toNat_ofNat (n : Nat) (h : n.isValidChar) : (Char.ofNat n).toNat = n := by
  simp [Char.ofNat, h, Char.ofNatAux, Char.toNat, UInt32.toNat, BitVec.toNat_ofNatLt]

/-- The weight of the digits emitted by `colLetterAux`, following its
recursion pattern. -/
def colPow : Nat → Nat → Int
  | 0, _ => 1
  | _ + 1, 0 => 1
  | f + 1, n + 1 => 26 * colPow f (n / 26)

theorem colLetterAux_fold (f : Nat) :
    ∀ (n : Nat), n ≤ f → ∀ (acc : List Char) (i : Int),
      (colLetterAux f n acc).foldl (fun index c => index * 26 + ((c.toNat : Int) - 64)) i =
      acc.foldl (fun index c => index * 26 + ((c.toNat : Int) - 64)) (i * colPow f n + n) := by
  induction f with
  | zero =>
    intro n hn acc i
    have hn0 : n = 0 := Nat.le_zero.mp hn
    subst hn0
    simp [colLetterAux, colPow]
  | succ f ih =>
    intro n hn acc i
    match n with
    | 0 => simp [colLetterAux, colPow]
    | m + 1 =>
      have hm : m / 26 ≤ f :=
        le_trans (Nat.div_le_self m 26) (Nat.le_of_succ_le_succ hn)
      rw [colLetterAux, ih (m / 26) hm, List.foldl_cons]
      have hchar : (Char.ofNat (65 + m % 26)).toNat = 65 + m % 26 :=
        char_toNat_ofNat _ (Or.inl (by omega))
      have hpow : colPow (f + 1) (m + 1) = 26 * colPow f (m / 26) := rfl
      rw [hpow]
      congr 1
      rw [hchar]
      rw [show i * (26 * colPow f (m / 26)) = i * colPow f (m / 26) * 26 from by ring]
      generalize i * colPow f (m / 26) = q
      push_cast
      omega

/-- Round-trip of the column helpers, for every positive index. -/
theorem columnIndex_columnLetter (n : Int) (h1 : 1 ≤ n) :
    getColumnIndex (getColumnLetter n) = n := by
  unfold getColumnIndex getColumnLetter
  show (colLetterAux n.toNat n.toNat []).foldl
      (fun index c => index * 26 + ((c.toNat : Int) - 64)) 0 = n
  rw [colLetterAux_fold n.toNat n.toNat le_rfl [] 0]
  simp only [List.foldl_nil, zero_mul, zero_add]
  exact Int.toNat_of_nonneg (by omega)

theorem intRange_nil (lo hi : Int) (h : hi < lo) : intRange lo hi = [] := by
  unfold intRange
  rw [Int.toNat_of_nonpos (by omega)]
  rfl

/-- One step of the inner serializer loop appends exactly the claim's cell
contribution. -/
theorem cellStep_eq (sheet : Sheet) (row : Int) (t : String) (col : Int) :
    (match sheet.cells (getColumnLetter col ++ toString row) with
     | some cell =>
       match cell.v with
       | some v => t ++ v ++ "\t"
       | none => t
     | none => t) = t ++ specCellText sheet row col := by
  unfold specCellText
  cases hc : sheet.cells (getColumnLetter col ++ toString row) with
  | none => simp [Option.bind, String.append_empty]
  | some cell =>
    cases hv : cell.v with
    | none => simp [Option.bind, hv, String.append_empty]
    | some v => simp [Option.bind, hv, String.append_assoc]

/-- The accumulating loops of `convertSheetToText` compute exactly the
claim's row/cell description. -/
theorem serializeLoop_eq_spec (sheet : Sheet) (sc sr ec er : Int) :
    serializeLoop sheet sc sr ec er = specSerialize sheet sc sr ec er := by
  unfold serializeLoop specSerialize
  rw [foldl_step_concat _
      (fun row => strConcat ((intRange sc ec).map (fun col => specCellText sheet row col)) ++ "\n")
      ?hstep (intRange sr er) ""]
  · rw [String.empty_append]
  case hstep =>
    intro t row
    rw [foldl_step_concat _ (fun col => specCellText sheet row col)
        (fun t2 col => cellStep_eq sheet row t2 col) (intRange sc ec) t]
    rw [String.append_assoc]

/-! ## Concrete sheets used by the claims -/

/-- A sheet containing only A1 = "x", with range A1:B2. -/
def sheetC7 : Sheet :=
  ⟨some "A1:B2", fun a => if a = "A1" then some ⟨some "x"⟩ else none⟩

/-- A sheet whose range A2:A1 has start.row > end.row. -/
def sheetRowInv : Sheet :=
  ⟨some "A2:A1", fun a => if a = "A1" then some ⟨some "x"⟩ else none⟩

/-- A sheet whose range B1:A2 has start.column > end.column. -/
def sheetColInv : Sheet :=
  ⟨some "B1:A2", fun a => if a = "A1" then some ⟨some "x"⟩ else none⟩

/-- An empty sheet whose range A3:A1 has start.row > end.row. -/
def sheetC3w : Sheet := ⟨some "A3:A1", fun _ => none⟩

/-! ## Claims -/

/-- Claim C1, counterexample: on the non-JSON input `not json at all` the
extractor's failure carries only the constant message
`Invalid response format from Groq` — it does not wrap the original raw
input text as the claim asserts. -/
theorem c1_counterexample :
    parseGroqResponse "not json at all" = Except.error "Invalid response format from Groq" ∧
    "Invalid response format from Groq" ≠ "not json at all" :=
  ⟨rfl, by decide⟩

/-- Claim C1, amended: for every input string the extractor is total and
two-valued — it returns a success wrapping the parsed value exactly when
JSON parsing of the chosen candidate succeeds, and otherwise signals failure
by the typed error with the constant message
`Invalid response format from Groq` (which does not contain the raw input);
in particular the empty input yields that failure. -/
theorem c1_theorem :
    (∀ s : String,
      (∃ v, parseJson (chooseCandidate s) = some v ∧ parseGroqResponse s = Except.ok v) ∨
      (parseJson (chooseCandidate s) = none ∧
        parseGroqResponse s = Except.error "Invalid response format from Groq")) ∧
    parseGroqResponse "" = Except.error "Invalid response format from Groq" := by
  refine ⟨fun s => ?_, rfl⟩
  cases h : parseJson (chooseCandidate s) with
  | none => exact Or.inr ⟨rfl, by unfold parseGroqResponse; rw [h]⟩
  | some v => exact Or.inl ⟨v, rfl, by unfold parseGroqResponse; rw [h]⟩

/-- Claim C2, counterexample: `extract('here is the data: {"a":1} thanks')`
does not succeed with `{a: 1}` — the whole raw text is the candidate and
`JSON.parse` rejects the surrounding prose, so the extractor fails. -/
theorem c2_counterexample :
    parseGroqResponse "here is the data: \x7b\"a\":1\x7d thanks" =
      Except.error "Invalid response format from Groq" ∧
    parseGroqResponse "here is the data: \x7b\"a\":1\x7d thanks" ≠
      Except.ok (Json.jobj [("a", Json.jnum "1")]) := by
  refine ⟨rfl, ?_⟩
  intro h
  rw [show parseGroqResponse "here is the data: \x7b\"a\":1\x7d thanks" =
      Except.error "Invalid response format from Groq" from rfl] at h
  exact Except.noConfusion h

/-- Claim C2, amended: when the raw input contains no fenced code block the
entire raw text is indeed the candidate, but JSON embedded in surrounding
prose does not parse: `extract('here is the data: {"a":1} thanks')` fails
with the malformed-payload error; the whole-text fallback succeeds only when
the whole text is valid JSON, e.g. `extract(' {"a":1} ')` yields `{a: 1}`. -/
theorem c2_theorem :
    chooseCandidate "here is the data: \x7b\"a\":1\x7d thanks" =
      "here is the data: \x7b\"a\":1\x7d thanks" ∧
    parseGroqResponse "here is the data: \x7b\"a\":1\x7d thanks" =
      Except.error "Invalid response format from Groq" ∧
    parseGroqResponse " \x7b\"a\":1\x7d " = Except.ok (Json.jobj [("a", Json.jnum "1")]) :=
  ⟨rfl, rfl, rfl⟩

/-- Claim C3, counterexample: `serialize` does not fail on an inverted
range.  With start.row > end.row (sheet range A2:A1) it returns the empty
text, and with start.column > end.column (sheet range B1:A2) it returns one
bare newline per row — in both cases a success, not an `InvalidRange`
error. -/
theorem c3_counterexample :
    convertSheetToText sheetRowInv = Except.ok "" ∧
    convertSheetToText sheetColInv = Except.ok "\n\n" :=
  ⟨rfl, rfl⟩

/-- Claim C3, amended: `serialize` performs no range validation: whenever
the sheet's ref parses, the loops run and a success is returned (absent
cells included); when start.row > end.row the row loop body never executes
and the output is the empty string. -/
theorem c3_theorem (sheet : Sheet) (r : String) (sc sr ec er : Int)
    (h1 : sheet.ref = some r) (h2 : r ≠ "")
    (h3 : parseRange r = Except.ok (sc, sr, ec, er)) :
    (∃ out, convertSheetToText sheet = Except.ok out) ∧
    (er < sr → convertSheetToText sheet = Except.ok "") := by
  have hconv : convertSheetToText sheet = Except.ok (serializeLoop sheet sc sr ec er) := by
    unfold convertSheetToText
    simp only [h1]
    rw [if_neg h2, h3]
  refine ⟨⟨_, hconv⟩, fun hlt => ?_⟩
  rw [hconv]
  unfold serializeLoop
  rw [intRange_nil sr er hlt]
  rfl

/-- Claim C3, witness: applying the amended theorem to the concrete sheet
with range A3:A1 yields the empty serialization. -/
theorem c3_witness : convertSheetToText sheetC3w = Except.ok "" :=
  (c3_theorem sheetC3w "A3:A1" 1 3 1 1 rfl (by decide) rfl).2 (by decide)

/-- Claim C4, counterexample: `columnIndex` does not fail with
`InvalidFormat` on empty or non-uppercase input — it returns 0 on the empty
string and folds arbitrary characters (lowercase `a`, code 97, contributes
97 - 64 = 33). -/
theorem c4_counterexample : getColumnIndex "" = 0 ∧ getColumnIndex "a" = 33 :=
  ⟨rfl, rfl⟩

/-- Claim C4, amended: `columnIndex` performs no validation and never
fails: on every input string (empty, uppercase, or otherwise) it returns
the left fold `index = index*26 + (charCode(letter) - charCode('A') + 1)`
— which for one or more uppercase letters is exactly the claimed formula —
and the empty string yields 0. -/
theorem c4_theorem :
    (∀ s : String, getColumnIndex s = specColumnIndex s) ∧ getColumnIndex "AB" = 28 := by
  refine ⟨fun s => ?_, rfl⟩
  unfold getColumnIndex specColumnIndex
  have hfun : (fun (index : Int) (c : Char) => index * 26 + ((c.toNat : Int) - 64)) =
      (fun (index : Int) (c : Char) => index * 26 + ((c.toNat : Int) - 65 + 1)) := by
    funext index c
    omega
  rw [hfun]

/-- Claim C5, counterexample: `columnLetters` does not fail with
`InvalidArgument` for index ≤ 0 — it returns the empty string for 0 and for
negative indices. -/
theorem c5_counterexample : getColumnLetter 0 = "" ∧ getColumnLetter (-3) = "" :=
  ⟨rfl, rfl⟩

/-- Claim C5, amended: `columnLetters` never fails: every integer index ≤ 0
yields the empty string (the loop body never runs), and every index ≥ 1
yields its bijective base-26 letters, e.g. 1 → A, 26 → Z, 27 → AA,
703 → AAA. -/
theorem c5_theorem :
    (∀ i : Int, i ≤ 0 → getColumnLetter i = "") ∧
    getColumnLetter 1 = "A" ∧ getColumnLetter 26 = "Z" ∧
    getColumnLetter 27 = "AA" ∧ getColumnLetter 703 = "AAA" := by
  refine ⟨fun i h => ?_, rfl, rfl, rfl, rfl⟩
  unfold getColumnLetter
  rw [Int.toNat_of_nonpos h]
  rfl

/-- Claim C5, witness: the amended theorem applied at index -7. -/
theorem c5_witness : getColumnLetter (-7) = "" :=
  c5_theorem.1 (-7) (by decide)

/-- Claim C6: the column helpers round-trip — for every integer n in
[1, 1000000] (hence in particular in [1, 18278]),
`columnIndex(columnLetters(n)) == n`. -/
theorem c6_theorem (n : Int) (h1 : 1 ≤ n) (_h2 : n ≤ 1000000) :
    getColumnIndex (getColumnLetter n) = n :=
  columnIndex_columnLetter n h1

/-- Claim C6, witness: the round-trip at n = 703. -/
theorem c6_witness : getColumnIndex (getColumnLetter 703) = 703 :=
  c6_theorem 703 (by decide) (by decide)

/-- Claim C7: `serialize` emits, for each row of the range in ascending
order, each present cell's string value followed by a tab, nothing at all
for an absent cell, and exactly one newline per row regardless of content;
in particular on a sheet containing only A1 = "x" with range A1:B2 the
output is exactly `x`, tab, newline, newline. -/
theorem c7_theorem (sheet : Sheet) (r : String) (sc sr ec er : Int)
    (h1 : sheet.ref = some r) (h2 : r ≠ "")
    (h3 : parseRange r = Except.ok (sc, sr, ec, er)) :
    convertSheetToText sheet = Except.ok (specSerialize sheet sc sr ec er) ∧
    convertSheetToText sheetC7 = Except.ok "x\t\n\n" := by
  refine ⟨?_, rfl⟩
  unfold convertSheetToText
  simp only [h1]
  rw [if_neg h2, h3]
  show Except.ok (serializeLoop sheet sc sr ec er) =
    Except.ok (specSerialize sheet sc sr ec er)
  rw [serializeLoop_eq_spec]

/-- Claim C7, witness: the theorem applied to the sheet containing only
A1 = "x" with range A1:B2. -/
theorem c7_witness : convertSheetToText sheetC7 = Except.ok "x\t\n\n" :=
  (c7_theorem sheetC7 "A1:B2" 1 1 2 2 rfl (by decide) rfl).2

/-- Claim C8: the extractor's candidate sources are tried in the fixed
priority order json-tagged fence, then plain fence, then the whole raw text,
the first (nonempty) match winning; `extract` on a json-tagged fence around
`{"a":1}` succeeds with `{a: 1}`, and a json-tagged fence wins even against
an earlier plain fence. -/
theorem c8_theorem :
    (∀ (s g : String), matchJsonFence s = some g → g ≠ "" → chooseCandidate s = g) ∧
    (∀ (s g : String), matchJsonFence s = none → matchPlainFence s = some g → g ≠ "" →
      chooseCandidate s = g) ∧
    (∀ s : String, matchJsonFence s = none → matchPlainFence s = none →
      chooseCandidate s = s) ∧
    parseGroqResponse "\x60\x60\x60json\n\x7b\"a\":1\x7d\n\x60\x60\x60" =
      Except.ok (Json.jobj [("a", Json.jnum "1")]) ∧
    parseGroqResponse "\x60\x60\x60\nnope\n\x60\x60\x60\n\x60\x60\x60json\n\x7b\"a\":2\x7d\n\x60\x60\x60" =
      Except.ok (Json.jobj [("a", Json.jnum "2")]) := by
  refine ⟨?_, ?_, ?_, rfl, rfl⟩
  · intro s g h hne
    unfold chooseCandidate
    rw [h]
    simp only [Option.orElse]
    rw [if_neg hne]
  · intro s g hj hp hne
    unfold chooseCandidate
    rw [hj, hp]
    simp only [Option.orElse]
    rw [if_neg hne]
  · intro s hj hp
    unfold chooseCandidate
    rw [hj, hp]
    simp only [Option.orElse]

/-- Claim C8, witness: the first priority clause applied to a json-tagged
fence whose interior is `X`. -/
theorem c8_witness : chooseCandidate "\x60\x60\x60json\nX\n\x60\x60\x60" = "X" :=
  c8_theorem.1 "\x60\x60\x60json\nX\n\x60\x60\x60" "X" rfl (by decide)

/-- Claim C9: when the json-tagged fence matches with an empty interior —
e.g. the input which is just an opening json fence immediately followed by a
closing fence — the empty group is falsy, so the candidate falls back to the
entire raw input text, whose backticks then fail to parse as JSON. -/
theorem c9_theorem :
    (∀ s : String, matchJsonFence s = some "" → chooseCandidate s = s) ∧
    matchJsonFence "\x60\x60\x60json\x60\x60\x60" = some "" ∧
    chooseCandidate "\x60\x60\x60json\x60\x60\x60" = "\x60\x60\x60json\x60\x60\x60" ∧
    parseGroqResponse "\x60\x60\x60json\x60\x60\x60" =
      Except.error "Invalid response format from Groq" := by
  refine ⟨?_, rfl, rfl, rfl⟩
  intro s h
  unfold chooseCandidate
  rw [h]
  simp [Option.orElse]

/-- Claim C9, witness: the fallback clause applied to the fence-only
input. -/
theorem c9_witness :
    chooseCandidate "\x60\x60\x60json\x60\x60\x60" = "\x60\x60\x60json\x60\x60\x60" :=
  c9_theorem.1 "\x60\x60\x60json\x60\x60\x60" rfl

/-- Claim C10: for every sheet whose `!ref` is absent, serialization
returns the empty string — no rows, no newlines — regardless of the cell
entries, and it does not fail. -/
theorem c10_theorem (cells : String → Option Cell) :
    convertSheetToText ⟨none, cells⟩ = Except.ok "" :=
  rfl
